import Mathlib

/-!
Verification of the 56idc auto-login script (src/56idc-renew.py).

The Python source is shallowly embedded as executable Lean definitions:

* pure string manipulation (`parse_accounts`, the session-file name
  transform of `get_session_file`, the substring tests done with Python's
  `in` operator) is translated character-by-character on `List Char`;
* every external effect (HTTP responses of the TOTP oracle, DOM queries,
  page titles, page text, current URL, selector probes) is an explicit
  input of the embedded function, so a run of the script is a pure
  function of those inputs;
* the bounded polling loops (`for i in range(N): if done: break`) become
  the fuelled `pollLoop`;
* branch decisions that in Python may be reached through a caught
  exception (`try ... except: continue / pass`) are modelled by the same
  two-way branch the `except` clause produces;
* `IDC56Login.run` and `main` are modelled together with an event trace
  recording which externally visible operations were performed, and the
  possibility of an *uncaught* exception inside an account's `run` is
  modelled with `Except` (the source has `try/finally` but no `except`
  around the per-account sequence).
-/

namespace IDC56

/-- Does `pat` occur as a prefix of the second list?  Helper for `hasSub`. -/
def startsWithL : List Char → List Char → Bool
  | [], _ => true
  | _ :: _, [] => false
  | p :: ps, c :: cs => (p == c) && startsWithL ps cs

/-- Python's containment test `pat in s` for strings: `pat` occurs as a
contiguous substring of `s`. -/
def hasSub (pat : List Char) : List Char → Bool
  | [] => pat.isEmpty
  | c :: rest => startsWithL pat (c :: rest) || hasSub pat rest

/-- One configured account, as produced by `parse_accounts`
(src/56idc-renew.py lines 48-66). -/
structure Account where
  email : String
  password : String
  totp_secret : String
deriving DecidableEq

/-- `parse_accounts` (lines 48-66): split the `ACCOUNTS` string on `,`,
strip each item, keep items containing `:`, split those on `:` and read
email, password and the optional TOTP secret. -/
def parse_accounts (s : String) : List Account :=
  if s = "" then []
  else
    (s.splitOn ",").foldr
      (fun item acc =>
        let it := item.trim
        if it.contains ':' then
          let parts := it.splitOn ":"
          if parts.length ≥ 2 then
            { email := (parts.getD 0 "").trim
              password := (parts.getD 1 "").trim
              totp_secret := if parts.length ≥ 3 then (parts.getD 2 "").trim else "" } :: acc
          else acc
        else acc)
      []

/-- `email.replace('@', '_at_')` of `get_session_file` (line 70):
single-character pattern, so occurrences are replaced one by one. -/
def replaceAt : List Char → List Char
  | [] => []
  | c :: cs => if c = '@' then '_' :: 'a' :: 't' :: '_' :: replaceAt cs else c :: replaceAt cs

/-- `.replace('.', '_')` of `get_session_file` (line 70). -/
def replaceDot : List Char → List Char
  | [] => []
  | c :: cs => (if c = '.' then '_' else c) :: replaceDot cs

/-- `safe_name` of `get_session_file` (line 70): first `@ → _at_`, then `. → _`. -/
def safe_name (email : List Char) : List Char := replaceDot (replaceAt email)

/-- The file name `f"{safe_name}.json"` returned by `get_session_file`
(line 71); the constant directory prefix is dropped, so two accounts share
a session file iff their `session_file_name`s are equal. -/
def session_file_name (email : List Char) : List Char := safe_name email ++ (".json").toList

/-- Identifiers containing neither `'.'` nor `'_'` (the two characters the
`safe_name` transform can confuse). -/
def plainId (l : List Char) : Bool := l.all fun c => (c != '.') && (c != '_')

/-! ### TOTP code acquisition (`IDC56Login.get_totp_code`, lines 112-141) -/

/-- Externally visible events of one `get_totp_code` call: an oracle fetch
that parsed to a code with its remaining validity window, a failed fetch
(non-200 status or a raised exception), and a `time.sleep`. -/
inductive TotpEv where
  | fetch (code : String) (remaining : Nat)
  | fetchFail
  | sleep (n : Nat)
deriving DecidableEq

/-- Result of `get_totp_code`: the returned code (`""` on failure, exactly
as the Python function returns `''`) plus the event trace. -/
structure TotpResult where
  code : String
  events : List TotpEv
deriving DecidableEq

/-- `get_totp_code(wait_for_fresh)` (lines 112-141).  `r1` is the parsed
first oracle response (`none` for a non-200 status or network failure),
`r2` the parsed second response used only on the `wait_for_fresh` retry
(`none` when that request raises).  When the first window `rem < 5` and a
fresh code was requested, the code sleeps `rem + 1` seconds and re-fetches,
returning the re-fetched code unconditionally; otherwise it returns the
first code. -/
def get_totp_code (api_url_set : Bool) (totp_secret : String) (wait_for_fresh : Bool)
    (r1 r2 : Option (String × Nat)) : TotpResult :=
  if api_url_set = false ∨ totp_secret = "" then ⟨"", []⟩
  else
    match r1 with
    | none => ⟨"", [TotpEv.fetchFail]⟩
    | some (c, rem) =>
      if wait_for_fresh && decide (rem < 5) then
        match r2 with
        | none => ⟨"", [TotpEv.fetch c rem, TotpEv.sleep (rem + 1), TotpEv.fetchFail]⟩
        | some (c2, rem2) => ⟨c2, [TotpEv.fetch c rem, TotpEv.sleep (rem + 1), TotpEv.fetch c2 rem2]⟩
      else ⟨c, [TotpEv.fetch c rem]⟩

/-- Total seconds slept strictly after position `i` of the event list. -/
def sleepAfter (evs : List TotpEv) (i : Nat) : Nat :=
  ((evs.drop (i + 1)).map fun e => match e with | TotpEv.sleep n => n | _ => 0).sum

/-- Every fetched code whose reported window is below the margin is
followed by at least `remaining` seconds of sleeping before the call
returns. -/
def shortFetchWaited (margin : Nat) (evs : List TotpEv) : Bool :=
  (List.range evs.length).all fun i =>
    match evs.getD i TotpEv.fetchFail with
    | TotpEv.fetch _ rem => decide (margin ≤ rem) || decide (rem ≤ sleepAfter evs i)
    | _ => true

/-- Claim C3 as stated, applied to one `get_totp_code` call: if a code is
accepted (nonempty result), then whenever the oracle reported a window
below the 5-second margin, the handler waited at least that many seconds
before accepting. -/
def freshCodeClaim (r : TotpResult) : Prop :=
  r.code ≠ "" → shortFetchWaited 5 r.events = true

/-! ### Bounded polling loops -/

/-- The script's `for i in range(N): if done(i): break` pattern (the
Cloudflare interstitial loops at lines 262-272 and 371-380, the Turnstile
token poll at lines 298-304 and the ordered selector probe at lines
183-193).  Returns how many condition checks were performed and whether
the loop exited through the break.  The definition is structurally
recursive on the fuel, so every such loop terminates. -/
def pollLoop (done : Nat → Bool) : Nat → Nat → Nat × Bool
  | 0, i => (i, false)
  | fuel + 1, i => if done i then (i + 1, true) else pollLoop done fuel (i + 1)

/-- The Cloudflare interstitial loop (lines 262-272, and identically lines
371-380): up to 30 title checks; the loop breaks the first time the title
no longer contains `'Just a moment'`.  `present i` says whether the marker
is still in the title at the i-th check.  Returns (title checks, passed). -/
def cfChallenge (present : Nat → Bool) : Nat × Bool :=
  pollLoop (fun i => !(present i)) 30 0

/-- The Turnstile hidden-field poll (lines 298-304): up to 15 reads of
`input[name=cf-turnstile-response].value`, breaking once its length
exceeds 10. -/
def tsVerify (fieldLen : Nat → Nat) : Nat × Bool :=
  pollLoop (fun i => decide (10 < fieldLen i)) 15 0

/-- Outcome of the embedded-widget (Turnstile) stage. -/
inductive TsOutcome where
  | absent
  | solved
  | timedOut
deriving DecidableEq

/-- Observable result of the Turnstile stage (lines 279-307). -/
structure TsResult where
  outcome : TsOutcome
  clicks : Nat
  polls : Nat
deriving DecidableEq

/-- The embedded-widget stage (lines 279-307): if `.cf-turnstile` is
absent the stage does nothing; if present, one simulated click is
dispatched and the hidden verification field is polled (`tsVerify`);
timeout only logs a warning. -/
def turnstileStage (present : Bool) (fieldLen : Nat → Nat) : TsResult :=
  if present then
    ⟨if (tsVerify fieldLen).2 then TsOutcome.solved else TsOutcome.timedOut, 1,
      (tsVerify fieldLen).1⟩
  else ⟨TsOutcome.absent, 0, 0⟩

/-! ### Second-factor handler (`IDC56Login.handle_2fa`, lines 143-219) -/

/-- Environment of one `handle_2fa` call: the page URL and visible text at
entry, the account's TOTP secret, the oracle inputs forwarded to
`get_totp_code`, the outcome of probing each of the 8 ordered selector
candidates (`sel i = true` iff the i-th `query_selector` finds an element
and `fill` succeeds on it; a missing element and a raised exception both
continue to the next candidate, lines 183-193), and the URL observed after
submission. -/
structure TwoFAEnv where
  url : List Char
  text : List Char
  totp_secret : String
  api_url_set : Bool
  r1 : Option (String × Nat)
  r2 : Option (String × Nat)
  sel : Nat → Bool
  newUrl : List Char

/-- The 2FA-page detection of lines 149-154. -/
def is_2fa_page (url text : List Char) : Bool :=
  hasSub ("challenge").toList url || hasSub ("两步验证").toList text ||
  hasSub ("2FA").toList text || hasSub ("Two-Factor").toList text ||
  hasSub ("认证器").toList text || hasSub ("Authentication").toList text

/-- The ordered probe over the 8 selector candidates (lines 172-193):
`filled` is true iff some candidate succeeds, scanning in order. -/
def findFill (sel : Nat → Bool) : Bool := (pollLoop sel 8 0).2

/-- `handle_2fa` (lines 143-219): no marker ⇒ `True`; missing secret ⇒
`False`; empty code from `get_totp_code(wait_for_fresh=True)` ⇒ `False`;
no selector filled ⇒ `False`; `'incorrect'` in the post-submit URL ⇒
`False`; otherwise `True`.  The submit-button click (lines 200-209) cannot
change the outcome: its exceptions are caught and only logged. -/
def handle_2fa (e : TwoFAEnv) : Bool :=
  if is_2fa_page e.url e.text = false then true
  else if e.totp_secret = "" then false
  else if (get_totp_code e.api_url_set e.totp_secret true e.r1 e.r2).code = "" then false
  else if findFill e.sel = false then false
  else if hasSub ("incorrect").toList e.newUrl then false
  else true

/-! ### Login state machine (`IDC56Login.login` and `IDC56Login.run`) -/

/-- Externally visible operations of one account's run, in order. -/
inductive Ev where
  | loadSession
  | gotoDashboard
  | cfCheck
  | gotoLogin
  | tsClick
  | tsPoll
  | fillEmail
  | fillPassword
  | clickSubmit
  | twoFA
  | saveSession
deriving DecidableEq

/-- Environment of one `login()` call (lines 251-341): the interstitial
marker at each title check, presence of the Turnstile widget and its
hidden-field lengths, the `handle_2fa` environment, and the URL/text at
the final result check (lines 330-333, read after 2FA handling). -/
structure LoginEnv where
  cfPresent : Nat → Bool
  tsPresent : Bool
  tsFieldLen : Nat → Nat
  fa : TwoFAEnv
  finalUrl : List Char
  finalText : List Char

/-- The operations `login()` performs, in source order (lines 251-325):
navigate, poll the interstitial, click and poll the Turnstile widget when
present, fill both credential fields, click submit, run `handle_2fa`.
None of these steps is conditional on the outcome of the challenge
stages. -/
def loginTrace (e : LoginEnv) : List Ev :=
  Ev.gotoLogin :: List.replicate (cfChallenge e.cfPresent).1 Ev.cfCheck ++
    (if e.tsPresent then
      Ev.tsClick :: List.replicate (turnstileStage e.tsPresent e.tsFieldLen).polls Ev.tsPoll
     else []) ++
    [Ev.fillEmail, Ev.fillPassword, Ev.clickSubmit, Ev.twoFA]

/-- `login()` (lines 251-341): the result is `False` when `handle_2fa`
fails (line 325-327), else `True` iff `'clientarea' in url` or a logout
marker is in the page text (line 333). -/
def login (e : LoginEnv) : Bool × List Ev :=
  (if handle_2fa e.fa then
     hasSub ("clientarea").toList e.finalUrl || hasSub ("退出").toList e.finalText ||
       hasSub ("Logout").toList e.finalText
   else false,
   loginTrace e)

/-- `check_logged_in` (lines 239-249): `'login' in url.lower()` forces
`False`; otherwise the logout text markers (skipped when reading the page
text raised, modelled by `text = none`) and finally `'clientarea' in url`
decide.  `Char.toLower` agrees with Python's `str.lower` on the ASCII
marker characters involved. -/
def check_logged_in (url : List Char) (text : Option (List Char)) : Bool :=
  if hasSub ("login").toList (url.map Char.toLower) then false
  else
    match text with
    | some t =>
      if hasSub ("退出").toList t || hasSub ("Logout").toList t then true
      else hasSub ("clientarea").toList url
    | none => hasSub ("clientarea").toList url

/-- Environment of one `IDC56Login.run` call (lines 343-406):
`hasSession` is the result of `load_session` (line 364), `dashCfPresent`
drives the dashboard interstitial loop (lines 371-380, whose outcome is
discarded by the source), `dashUrl`/`dashText` feed `check_logged_in`
(line 384; `dashText = none` models the page-text read raising), and `le`
is the environment of the `login()` call reached when no valid session
exists. -/
structure RunEnv where
  hasSession : Bool
  dashCfPresent : Nat → Bool
  dashUrl : List Char
  dashText : Option (List Char)
  le : LoginEnv

/-- `IDC56Login.run` (lines 343-406), exception-free paths: with a valid
saved session the login call is skipped entirely; otherwise `login()`
decides; on every `True` outcome `save_session` (which writes the current
cookies, lines 221-225) runs before returning, and on every `False`
outcome it does not.  The keep-alive stay loop (lines 395-400) only
sleeps and is elided. -/
def run (e : RunEnv) : Bool × List Ev :=
  if e.hasSession then
    let pre := Ev.loadSession :: Ev.gotoDashboard ::
      List.replicate (cfChallenge e.dashCfPresent).1 Ev.cfCheck
    if check_logged_in e.dashUrl e.dashText then
      (true, pre ++ [Ev.saveSession])
    else
      if (login e.le).1 then (true, pre ++ (login e.le).2 ++ [Ev.saveSession])
      else (false, pre ++ (login e.le).2)
  else
    if (login e.le).1 then (true, Ev.loadSession :: (login e.le).2 ++ [Ev.saveSession])
    else (false, Ev.loadSession :: (login e.le).2)

/-! ### Batch orchestrator (`main`, lines 409-469) -/

/-- `true` iff the run completed without an uncaught exception. -/
def isOkB : Except Unit Bool → Bool
  | Except.ok _ => true
  | Except.error _ => false

/-- The boolean outcome of a completed run (`false` for an exception,
unused in that case). -/
def okVal : Except Unit Bool → Bool
  | Except.ok b => b
  | Except.error _ => false

/-- The account loop of `main` (lines 426-431).  `run a` is the outcome of
`IDC56Login(...).run()` for account `a`: `Except.error ()` models an
uncaught exception escaping `run` (the source wraps the per-account
sequence in `try/finally` with no `except`, and `main` does not catch
either, so the exception propagates).  Returns the accounts for which
`run` was invoked, and either the collected `results` list or the escaped
exception. -/
def runAccounts (run : Account → Except Unit Bool) :
    List Account → List Account × Except Unit (List (String × Bool))
  | [] => ([], Except.ok [])
  | a :: rest =>
    match run a with
    | Except.error e => ([a], Except.error e)
    | Except.ok b =>
      match runAccounts run rest with
      | (att, Except.error e) => (a :: att, Except.error e)
      | (att, Except.ok rs) => (a :: att, Except.ok ((a.email, b) :: rs))

/-- Process termination: a normal `exit(n)` or an uncaught exception
(which the Python interpreter also turns into a non-zero status, after a
traceback). -/
inductive ExitStatus where
  | code (n : Nat)
  | exn
deriving DecidableEq

/-- The exit computation of `main` (lines 438, 443, 464) and `__main__`
(lines 467-469): `success_count = len(results)` decides between exit 0
and exit 1. -/
def batchExit (run : Account → Except Unit Bool) (accounts : List Account) : ExitStatus :=
  match (runAccounts run accounts).2 with
  | Except.error _ => ExitStatus.exn
  | Except.ok results =>
    ExitStatus.code (if (results.filter fun r => r.2).length = results.length then 0 else 1)

/-- `main` plus the `__main__` guard (lines 409-413 and 467-469): an empty
parsed configuration prints a fatal error and calls `exit(1)` before any
`IDC56Login` object exists; otherwise every account is handed to
`IDC56Login.run` and the exit code reflects the tally.  The first
component lists the accounts whose `run` was invoked (browser activity). -/
def mainExit (run : Account → Except Unit Bool) (s : String) : List Account × ExitStatus :=
  if (parse_accounts s).isEmpty then ([], ExitStatus.code 1)
  else ((runAccounts run (parse_accounts s)).1, batchExit run (parse_accounts s))

/-! ### Concrete sample environments (used by the witness theorems) -/

/-- A page with no second-factor markers at all. -/
def faQuiet : TwoFAEnv :=
  { url := [], text := [], totp_secret := "", api_url_set := false,
    r1 := none, r2 := none, sel := fun _ => false, newUrl := [] }

/-- A login environment whose interstitial clears at once and whose widget
is absent. -/
def leQuiet : LoginEnv :=
  { cfPresent := fun _ => false, tsPresent := false, tsFieldLen := fun _ => 0,
    fa := faQuiet, finalUrl := [], finalText := [] }

/-- A run whose saved session is still valid at the dashboard. -/
def e5 : RunEnv :=
  { hasSession := true, dashCfPresent := fun _ => false,
    dashUrl := ("https://56idc.net/clientarea.php").toList,
    dashText := some ("Logout").toList, le := leQuiet }

/-- A login environment whose interstitial never clears. -/
def e7 : LoginEnv := { leQuiet with cfPresent := fun _ => true }

/-- A login environment with the widget present but its hidden field never
populated. -/
def e8 : LoginEnv := { leQuiet with tsPresent := true }

/-- A 2FA environment where everything succeeds: marker present, secret
enrolled, fresh code from the oracle, first selector fills, post-submit
URL clean. -/
def fa9 : TwoFAEnv :=
  { url := ("https://56idc.net/challenge").toList, text := [],
    totp_secret := "SECRET", api_url_set := true,
    r1 := some ("123456", 20), r2 := none,
    sel := fun i => i == 0,
    newUrl := ("https://56idc.net/clientarea.php").toList }

/-- Sample account 1. -/
def acctA : Account := { email := "alice@x.com", password := "pw1", totp_secret := "" }

/-- Sample account 2. -/
def acctB : Account := { email := "bob@x.com", password := "pw2", totp_secret := "KEY" }

/-- A per-account runner whose first account raises an uncaught exception. -/
def runRaises : Account → Except Unit Bool :=
  fun a => if a.email = "alice@x.com" then Except.error () else Except.ok true

/-- A per-account runner whose first account fails (returns `False`) and
whose other accounts succeed, all without exceptions. -/
def runMixed : Account → Except Unit Bool :=
  fun a => if a.email = "alice@x.com" then Except.ok false else Except.ok true

/-! ### Helper lemmas about the polling combinator -/

theorem pollLoop_fst_le (done : Nat → Bool) :
    ∀ fuel i, (pollLoop done fuel i).1 ≤ i + fuel := by
  intro fuel
  induction fuel with
  | zero => intro i; simp [pollLoop]
  | succ n ih =>
    intro i
    cases h : done i with
    | true => simp [pollLoop, h]
    | false =>
      simp only [pollLoop, h]
      have := ih (i + 1)
      simp only [Bool.false_eq_true, if_false]
      omega

theorem pollLoop_true_iff (done : Nat → Bool) :
    ∀ fuel i, ((pollLoop done fuel i).2 = true ↔ ∃ j, i ≤ j ∧ j < i + fuel ∧ done j = true) := by
  intro fuel
  induction fuel with
  | zero =>
    intro i
    constructor
    · intro h; simp [pollLoop] at h
    · rintro ⟨j, h1, h2, _⟩; omega
  | succ n ih =>
    intro i
    cases h : done i with
    | true =>
      constructor
      · intro _; exact ⟨i, Nat.le_refl i, by omega, h⟩
      · intro _; simp [pollLoop, h]
    | false =>
      constructor
      · intro hp
        simp only [pollLoop, h, Bool.false_eq_true, if_false] at hp
        obtain ⟨j, h1, h2, h3⟩ := (ih (i + 1)).1 hp
        exact ⟨j, by omega, by omega, h3⟩
      · rintro ⟨j, h1, h2, h3⟩
        have hj : i + 1 ≤ j := by
          rcases Nat.eq_or_lt_of_le h1 with rfl | hlt
          · simp [h] at h3
          · omega
        simp only [pollLoop, h, Bool.false_eq_true, if_false]
        exact (ih (i + 1)).2 ⟨j, hj, by omega, h3⟩

theorem pollLoop_first (done : Nat → Bool) :
    ∀ fuel i, (pollLoop done fuel i).2 = true →
      done ((pollLoop done fuel i).1 - 1) = true ∧
      ∀ j, i ≤ j → j + 1 < (pollLoop done fuel i).1 → done j = false := by
  intro fuel
  induction fuel with
  | zero => intro i h; simp [pollLoop] at h
  | succ n ih =>
    intro i h
    cases hd : done i with
    | true =>
      have hred : pollLoop done (n + 1) i = (i + 1, true) := by simp [pollLoop, hd]
      rw [hred]
      refine ⟨by simpa using hd, ?_⟩
      intro j hij hj
      simp only at hj
      exact absurd hij (by omega)
    | false =>
      have hred : pollLoop done (n + 1) i = pollLoop done n (i + 1) := by
        simp [pollLoop, hd]
      rw [hred] at h ⊢
      obtain ⟨h1, h2⟩ := ih (i + 1) h
      refine ⟨h1, ?_⟩
      intro j hij hj
      rcases Nat.eq_or_lt_of_le hij with rfl | hlt
      · exact hd
      · exact h2 j (by omega) hj

/-! ### Helper lemmas about lists and the batch loop -/

theorem filter_length_eq_iff {α : Type} (p : α → Bool) :
    ∀ l : List α, (((l.filter p).length = l.length) ↔ ∀ a ∈ l, p a = true) := by
  intro l
  induction l with
  | nil => simp
  | cons a rest ih =>
    cases hp : p a with
    | true => simp [List.filter_cons, hp, ih]
    | false =>
      have hle := List.length_filter_le p rest
      simp only [List.filter_cons, hp, Bool.false_eq_true, if_false, List.length_cons]
      constructor
      · intro h; exact absurd h (by omega)
      · intro h
        have := h a (List.mem_cons_self a rest)
        simp [hp] at this

theorem runAccounts_ok (run : Account → Except Unit Bool) :
    ∀ accounts : List Account, (∀ a ∈ accounts, isOkB (run a) = true) →
      runAccounts run accounts =
        (accounts, Except.ok (accounts.map fun a => (a.email, okVal (run a)))) := by
  intro accounts
  induction accounts with
  | nil => intro _; rfl
  | cons a rest ih =>
    intro h
    have ha := h a (List.mem_cons_self a rest)
    have hrest := ih fun x hx => h x (List.mem_cons_of_mem a hx)
    cases hra : run a with
    | error e => rw [hra] at ha; simp [isOkB] at ha
    | ok b =>
      simp only [runAccounts, hra, hrest, List.map_cons]
      simp [okVal, hra]

theorem runAccounts_error (run : Account → Except Unit Bool) :
    ∀ accounts : List Account, (∃ a ∈ accounts, isOkB (run a) = false) →
      (runAccounts run accounts).2 = Except.error () := by
  intro accounts
  induction accounts with
  | nil => rintro ⟨a, ha, _⟩; exact absurd ha (List.not_mem_nil a)
  | cons a rest ih =>
    rintro ⟨x, hx, hxf⟩
    cases hra : run a with
    | error e => cases e; simp [runAccounts, hra]
    | ok b =>
      rcases List.mem_cons.1 hx with rfl | hxr
      · rw [hra] at hxf; simp [isOkB] at hxf
      · have h2 := ih ⟨x, hxr, hxf⟩
        cases hrr : runAccounts run rest with
        | mk att res =>
          rw [hrr] at h2
          simp only at h2
          subst h2
          simp [runAccounts, hra, hrr]

/-! ### Helper lemmas about the session-file transform -/

theorem replaceAt_eq_nil_iff {l : List Char} : replaceAt l = [] ↔ l = [] := by
  cases l with
  | nil => simp [replaceAt]
  | cons c cs =>
    simp only [replaceAt]
    constructor
    · intro h
      by_cases hc : c = '@' <;> simp [hc] at h
    · intro h; cases h

theorem mem_replaceAt {c : Char} :
    ∀ {l : List Char}, c ∈ replaceAt l → c ∈ l ∨ c = '_' ∨ c = 'a' ∨ c = 't' := by
  intro l
  induction l with
  | nil => intro h; simp [replaceAt] at h
  | cons x xs ih =>
    intro h
    by_cases hx : x = '@'
    · simp only [replaceAt, hx, if_pos, List.mem_cons] at h
      rcases h with h | h | h | h | h
      · exact Or.inr (Or.inl h)
      · exact Or.inr (Or.inr (Or.inl h))
      · exact Or.inr (Or.inr (Or.inr h))
      · exact Or.inr (Or.inl h)
      · rcases ih h with h1 | h2
        · exact Or.inl (List.mem_cons_of_mem x h1)
        · exact Or.inr h2
    · simp only [replaceAt, if_neg hx, List.mem_cons] at h
      rcases h with rfl | h1
      · exact Or.inl (List.mem_cons_self c xs)
      · rcases ih h1 with h2 | h3
        · exact Or.inl (List.mem_cons_of_mem x h2)
        · exact Or.inr h3

theorem at_not_mem_replaceAt : ∀ l : List Char, '@' ∉ replaceAt l := by
  intro l
  induction l with
  | nil => simp [replaceAt]
  | cons x xs ih =>
    by_cases hx : x = '@'
    · simp only [replaceAt, hx, if_pos, List.mem_cons, not_or]
      exact ⟨by decide, by decide, by decide, by decide, ih⟩
    · simp only [replaceAt, if_neg hx, List.mem_cons, not_or]
      exact ⟨fun he => hx he.symm, ih⟩

theorem mem_replaceDot {c : Char} :
    ∀ {l : List Char}, c ∈ replaceDot l → c = '_' ∨ c ∈ l := by
  intro l
  induction l with
  | nil => intro h; simp [replaceDot] at h
  | cons x xs ih =>
    intro h
    simp only [replaceDot] at h
    rcases List.mem_cons.1 h with h1 | h1
    · by_cases hx : x = '.'
      · rw [if_pos hx] at h1; exact Or.inl h1
      · rw [if_neg hx] at h1; exact Or.inr (h1 ▸ List.mem_cons_self x xs)
    · rcases ih h1 with h2 | h2
      · exact Or.inl h2
      · exact Or.inr (List.mem_cons_of_mem x h2)

theorem dot_not_mem_replaceDot : ∀ l : List Char, '.' ∉ replaceDot l := by
  intro l
  induction l with
  | nil => simp [replaceDot]
  | cons x xs ih =>
    simp only [replaceDot, List.mem_cons, not_or]
    constructor
    · intro he
      by_cases hx : x = '.'
      · rw [if_pos hx] at he; exact absurd he (by decide)
      · rw [if_neg hx] at he; exact hx he.symm
    · exact ih

theorem replaceDot_eq_self : ∀ {l : List Char}, '.' ∉ l → replaceDot l = l := by
  intro l
  induction l with
  | nil => intro _; rfl
  | cons x xs ih =>
    intro h
    have hx : x ≠ '.' := fun he => h (he ▸ List.mem_cons_self x xs)
    have hxs : '.' ∉ xs := fun hm => h (List.mem_cons_of_mem x hm)
    simp only [replaceDot, ih hxs]
    rw [if_neg hx]

theorem replaceAt_injOn :
    ∀ {l1 l2 : List Char}, '_' ∉ l1 → '_' ∉ l2 → replaceAt l1 = replaceAt l2 → l1 = l2 := by
  intro l1
  induction l1 with
  | nil =>
    intro l2 _ _ h
    exact (replaceAt_eq_nil_iff.1 h.symm).symm
  | cons c1 t1 ih =>
    intro l2 h1 h2 h
    cases l2 with
    | nil =>
      exact absurd (replaceAt_eq_nil_iff.1 (h.trans rfl)) (by simp)
    | cons c2 t2 =>
      have h1t : '_' ∉ t1 := fun hm => h1 (List.mem_cons_of_mem c1 hm)
      have h2t : '_' ∉ t2 := fun hm => h2 (List.mem_cons_of_mem c2 hm)
      have h1h : c1 ≠ '_' := fun he => h1 (he ▸ List.mem_cons_self c1 t1)
      have h2h : c2 ≠ '_' := fun he => h2 (he ▸ List.mem_cons_self c2 t2)
      by_cases hc1 : c1 = '@' <;> by_cases hc2 : c2 = '@'
      · subst hc1; subst hc2
        simp only [replaceAt, if_pos, List.cons.injEq, true_and] at h
        rw [ih h1t h2t h]
      · subst hc1
        simp only [replaceAt, if_pos, if_neg hc2, List.cons.injEq] at h
        exact absurd h.1.symm h2h
      · subst hc2
        simp only [replaceAt, if_pos, if_neg hc1, List.cons.injEq] at h
        exact absurd h.1 h1h
      · simp only [replaceAt, if_neg hc1, if_neg hc2, List.cons.injEq] at h
        rw [h.1, ih h1t h2t h.2]

theorem append_cancel_json {l1 l2 : List Char} (s : List Char)
    (h : l1 ++ s = l2 ++ s) : l1 = l2 := by
  have hlen : l1.length = l2.length := by
    have := congrArg List.length h
    simp only [List.length_append] at this
    omega
  exact (List.append_inj h hlen).1

/-! ### Helper lemmas about the login trace -/

theorem fillEmail_mem_loginTrace (e : LoginEnv) : Ev.fillEmail ∈ (login e).2 := by
  simp only [login, loginTrace]
  cases e.tsPresent <;> simp [List.mem_append]

theorem saveSession_not_mem_loginTrace (e : LoginEnv) : Ev.saveSession ∉ (login e).2 := by
  simp only [login, loginTrace]
  cases e.tsPresent <;> simp [List.mem_append, List.mem_replicate]

theorem plainId_spec {l : List Char} (h : plainId l = true) : '.' ∉ l ∧ '_' ∉ l := by
  simp only [plainId, List.all_eq_true] at h
  constructor
  · intro hm
    have := h '.' hm
    simp at this
  · intro hm
    have := h '_' hm
    simp at this

theorem batchExit_zero_iff (run : Account → Except Unit Bool) (accounts : List Account) :
    batchExit run accounts = ExitStatus.code 0 ↔ ∀ a ∈ accounts, run a = Except.ok true := by
  by_cases hok : ∀ a ∈ accounts, isOkB (run a) = true
  · have h2 : (runAccounts run accounts).2 =
        Except.ok (accounts.map fun a => (a.email, okVal (run a))) := by
      rw [runAccounts_ok run accounts hok]
    simp only [batchExit, h2]
    constructor
    · intro hc
      simp only [ExitStatus.code.injEq] at hc
      have hcond : (((accounts.map fun a => (a.email, okVal (run a))).filter
          fun r => r.2).length = (accounts.map fun a => (a.email, okVal (run a))).length) := by
        by_contra hne
        rw [if_neg hne] at hc
        cases hc
      have hall := (filter_length_eq_iff (fun r : String × Bool => r.2) _).1 hcond
      intro a ha
      have hv := hall (a.email, okVal (run a)) (List.mem_map_of_mem _ ha)
      have hoa := hok a ha
      cases hra : run a with
      | error er => rw [hra] at hoa; simp [isOkB] at hoa
      | ok b =>
        rw [hra] at hv
        simp only [okVal] at hv
        rw [hv]
    · intro hall
      have hcond : (((accounts.map fun a => (a.email, okVal (run a))).filter
          fun r => r.2).length = (accounts.map fun a => (a.email, okVal (run a))).length) := by
        apply (filter_length_eq_iff (fun r : String × Bool => r.2) _).2
        intro r hr
        obtain ⟨a, ha, rfl⟩ := List.mem_map.1 hr
        simp [okVal, hall a ha]
      simp [hcond]
  · push_neg at hok
    obtain ⟨a, ha, hna⟩ := hok
    have hb : isOkB (run a) = false := by
      cases hv : isOkB (run a)
      · rfl
      · exact absurd hv hna
    have herr := runAccounts_error run accounts ⟨a, ha, hb⟩
    simp only [batchExit, herr]
    constructor
    · intro hc; cases hc
    · intro hall
      have hat := hall a ha
      rw [hat] at hb
      simp [isOkB] at hb

/-! ### The claims -/

/-- C10 (confirmed): the logged-in check gives the URL test precedence:
whenever `'login'` occurs in the lowercased current URL,
`check_logged_in` returns `false`, even if the page text contains a
logout marker; only when the URL lacks that substring are the logout text
markers and the `'clientarea'` URL fragment consulted. -/
theorem check_logged_in_spec (url : List Char) (text : Option (List Char)) :
    (hasSub ("login").toList (url.map Char.toLower) = true →
      check_logged_in url text = false) ∧
    (hasSub ("login").toList (url.map Char.toLower) = false →
      check_logged_in url text =
        match text with
        | some t =>
          (hasSub ("退出").toList t || hasSub ("Logout").toList t) ||
            hasSub ("clientarea").toList url
        | none => hasSub ("clientarea").toList url) := by
  constructor
  · intro h
    unfold check_logged_in
    rw [if_pos h]
  · intro h
    unfold check_logged_in
    rw [if_neg (by rw [h]; simp)]
    cases text with
    | none => rfl
    | some t =>
      show (if (hasSub ("退出").toList t || hasSub ("Logout").toList t) = true then true
          else hasSub ("clientarea").toList url) =
        ((hasSub ("退出").toList t || hasSub ("Logout").toList t) ||
          hasSub ("clientarea").toList url)
      by_cases hm : (hasSub ("退出").toList t || hasSub ("Logout").toList t) = true
      · rw [if_pos hm, hm]; rfl
      · have hm2 : (hasSub ("退出").toList t || hasSub ("Logout").toList t) = false := by
          cases hmm : (hasSub ("退出").toList t || hasSub ("Logout").toList t)
          · rfl
          · exact absurd hmm hm
        rw [if_neg (by rw [hm2]; simp), hm2]; rfl

/-- C10 witness: a URL containing `Login` makes `check_logged_in` return
`false` although the page text carries the `Logout` marker. -/
theorem check_logged_in_spec_witness :
    check_logged_in ("https://56idc.net/Login.php").toList (some ("Logout here").toList) =
      false :=
  (check_logged_in_spec ("https://56idc.net/Login.php").toList
    (some ("Logout here").toList)).1 (by decide)

/-- C5 (confirmed): when a saved session is loaded and the dashboard check
finds it valid, `run` short-circuits: it reports success and the
credential form-fill and submit of `login()` are never executed. -/
theorem session_short_circuit (e : RunEnv) (h1 : e.hasSession = true)
    (h2 : check_logged_in e.dashUrl e.dashText = true) :
    (run e).1 = true ∧ Ev.fillEmail ∉ (run e).2 ∧ Ev.fillPassword ∉ (run e).2 ∧
      Ev.clickSubmit ∉ (run e).2 := by
  refine ⟨?_, ?_, ?_, ?_⟩ <;>
    simp [run, h1, h2, List.mem_append, List.mem_replicate]

/-- C5 witness: a concrete run with a valid cached session. -/
theorem session_short_circuit_witness :
    (run e5).1 = true ∧ Ev.fillEmail ∉ (run e5).2 ∧ Ev.fillPassword ∉ (run e5).2 ∧
      Ev.clickSubmit ∉ (run e5).2 :=
  session_short_circuit e5 rfl (by decide)

/-- C6 (confirmed): a run reports success iff `save_session` (which
persists the then-current cookies) was invoked before returning; on every
failure outcome the save is never invoked, leaving the stored Session
Record unchanged. -/
theorem save_iff_success (e : RunEnv) :
    (run e).1 = true ↔ Ev.saveSession ∈ (run e).2 := by
  have hnl := saveSession_not_mem_loginTrace e.le
  by_cases hs : e.hasSession = true
  · by_cases hc : check_logged_in e.dashUrl e.dashText = true
    · simp [run, hs, hc, List.mem_append]
    · simp only [Bool.not_eq_true] at hc
      by_cases hl : (login e.le).1 = true
      · simp [run, hs, hc, hl, List.mem_append]
      · simp only [Bool.not_eq_true] at hl
        simp [run, hs, hc, hl, List.mem_append, List.mem_replicate, hnl]
  · simp only [Bool.not_eq_true] at hs
    by_cases hl : (login e.le).1 = true
    · simp [run, hs, hl, List.mem_append]
    · simp only [Bool.not_eq_true] at hl
      simp [run, hs, hl, List.mem_append, List.mem_replicate, hnl]

/-- C7 (confirmed): the interstitial loop performs at most 30 title checks
and terminates (the embedding is a total, fuelled function); it exits with
success exactly when some of the first 30 checks finds the marker gone, it
exits at the first such check (every earlier check still saw the marker),
and when the attempts are exhausted the login flow still proceeds to the
credential form. -/
theorem cf_interstitial_spec (e : LoginEnv) :
    (cfChallenge e.cfPresent).1 ≤ 30 ∧
    ((cfChallenge e.cfPresent).2 = true ↔ ∃ i, i < 30 ∧ e.cfPresent i = false) ∧
    ((cfChallenge e.cfPresent).2 = true →
      e.cfPresent ((cfChallenge e.cfPresent).1 - 1) = false ∧
      ∀ j, j + 1 < (cfChallenge e.cfPresent).1 → e.cfPresent j = true) ∧
    ((cfChallenge e.cfPresent).2 = false → Ev.fillEmail ∈ (login e).2) := by
  refine ⟨?_, ?_, ?_, fun _ => fillEmail_mem_loginTrace e⟩
  · have hle := pollLoop_fst_le (fun i => !(e.cfPresent i)) 30 0
    simpa [cfChallenge] using hle
  · constructor
    · intro hp
      obtain ⟨j, _, h2, h3⟩ :=
        (pollLoop_true_iff (fun i => !(e.cfPresent i)) 30 0).1 (by simpa [cfChallenge] using hp)
      exact ⟨j, by omega, by simpa using h3⟩
    · rintro ⟨j, h1, h2⟩
      have := (pollLoop_true_iff (fun i => !(e.cfPresent i)) 30 0).2
        ⟨j, Nat.zero_le j, by omega, by simp [h2]⟩
      simpa [cfChallenge] using this
  · intro hp
    obtain ⟨h1, h2⟩ := pollLoop_first (fun i => !(e.cfPresent i)) 30 0
      (by simpa [cfChallenge] using hp)
    constructor
    · simpa [cfChallenge] using h1
    · intro j hj
      have := h2 j (Nat.zero_le j) (by simpa [cfChallenge] using hj)
      simpa using this

/-- C7 witness: an interstitial that never clears exhausts the attempts,
and the flow still reaches the credential fill. -/
theorem cf_interstitial_spec_witness :
    (cfChallenge e7.cfPresent).2 = false ∧ Ev.fillEmail ∈ (login e7).2 :=
  ⟨by decide, (cf_interstitial_spec e7).2.2.2 (by decide)⟩

/-- C8 (confirmed): if the widget element is absent the stage does nothing
and is trivially satisfied (no click, no poll) and the flow proceeds; if
present, exactly one click is dispatched, the hidden field is polled at
most 15 times, success is declared exactly when some poll within the
budget sees a value length exceeding 10, and a timeout still lets the
flow proceed to the credential fill. -/
theorem turnstile_spec (e : LoginEnv) :
    (e.tsPresent = false →
      turnstileStage e.tsPresent e.tsFieldLen = ⟨TsOutcome.absent, 0, 0⟩ ∧
      Ev.fillEmail ∈ (login e).2) ∧
    (e.tsPresent = true →
      (turnstileStage e.tsPresent e.tsFieldLen).clicks = 1 ∧
      (turnstileStage e.tsPresent e.tsFieldLen).polls ≤ 15 ∧
      ((turnstileStage e.tsPresent e.tsFieldLen).outcome = TsOutcome.solved ↔
        ∃ i, i < 15 ∧ 10 < e.tsFieldLen i) ∧
      ((turnstileStage e.tsPresent e.tsFieldLen).outcome = TsOutcome.timedOut →
        Ev.fillEmail ∈ (login e).2)) := by
  constructor
  · intro h
    exact ⟨by simp [turnstileStage, h], fillEmail_mem_loginTrace e⟩
  · intro h
    refine ⟨by simp [turnstileStage, h], ?_, ?_, fun _ => fillEmail_mem_loginTrace e⟩
    · have hle := pollLoop_fst_le (fun i => decide (10 < e.tsFieldLen i)) 15 0
      simp only [turnstileStage, h, if_true]
      simpa [tsVerify] using hle
    · simp only [turnstileStage, h, if_true]
      by_cases hv : (tsVerify e.tsFieldLen).2 = true
      · rw [if_pos hv]
        constructor
        · intro _
          obtain ⟨j, _, h2, h3⟩ :=
            (pollLoop_true_iff (fun i => decide (10 < e.tsFieldLen i)) 15 0).1
              (by simpa [tsVerify] using hv)
          exact ⟨j, by omega, by simpa using h3⟩
        · intro _
          rfl
      · rw [if_neg hv]
        constructor
        · intro hcon
          cases hcon
        · rintro ⟨j, h1, h2⟩
          have := (pollLoop_true_iff (fun i => decide (10 < e.tsFieldLen i)) 15 0).2
            ⟨j, Nat.zero_le j, by omega, by simpa using h2⟩
          exact absurd (by simpa [tsVerify] using this) hv

/-- C8 witness: widget present, hidden field never populated: attempts are
exhausted, and the flow still reaches the credential fill. -/
theorem turnstile_spec_witness : Ev.fillEmail ∈ (login e8).2 :=
  ((turnstile_spec e8).2 rfl).2.2.2 (by decide)

/-- C9 (confirmed): the second-factor handler is a no-op success when no
marker appears in the URL or page text; with a marker present it fails
when the account has no enrolled secret, fails when no code can be
acquired, fails when no selector candidate fills, fails when the
post-submit URL signals an incorrect code, and succeeds otherwise. -/
theorem handle_2fa_spec (e : TwoFAEnv) :
    (is_2fa_page e.url e.text = false → handle_2fa e = true) ∧
    (is_2fa_page e.url e.text = true → e.totp_secret = "" → handle_2fa e = false) ∧
    (is_2fa_page e.url e.text = true →
      (get_totp_code e.api_url_set e.totp_secret true e.r1 e.r2).code = "" →
      handle_2fa e = false) ∧
    (is_2fa_page e.url e.text = true → findFill e.sel = false → handle_2fa e = false) ∧
    (is_2fa_page e.url e.text = true → hasSub ("incorrect").toList e.newUrl = true →
      handle_2fa e = false) ∧
    (is_2fa_page e.url e.text = true → e.totp_secret ≠ "" →
      (get_totp_code e.api_url_set e.totp_secret true e.r1 e.r2).code ≠ "" →
      findFill e.sel = true → hasSub ("incorrect").toList e.newUrl = false →
      handle_2fa e = true) := by
  refine ⟨?_, ?_, ?_, ?_, ?_, ?_⟩
  · intro h
    simp [handle_2fa, h]
  · intro h hs
    simp [handle_2fa, h, hs]
  · intro h hc
    by_cases hs : e.totp_secret = "" <;> simp [handle_2fa, h, hs, hc]
  · intro h hf
    by_cases hs : e.totp_secret = "" <;>
      by_cases hc : (get_totp_code e.api_url_set e.totp_secret true e.r1 e.r2).code = "" <;>
      simp [handle_2fa, h, hs, hc, hf]
  · intro h hi
    simp at hi
    by_cases hs : e.totp_secret = "" <;>
      by_cases hc : (get_totp_code e.api_url_set e.totp_secret true e.r1 e.r2).code = "" <;>
      by_cases hf : findFill e.sel = false <;>
      simp [handle_2fa, h, hs, hc, hf, hi]
  · intro h hs hc hf hi
    simp at hi
    simp [handle_2fa, h, hs, hc, hf, hi]

/-- C9 witness: marker present, secret enrolled, fresh code acquired,
first selector fills, clean post-submit URL: the handler succeeds. -/
theorem handle_2fa_spec_witness : handle_2fa fa9 = true :=
  (handle_2fa_spec fa9).2.2.2.2.2 (by decide) (by decide) (by decide) (by decide) (by decide)

/-- C3 counterexample: with the fresh-code option, when the first response
reports a 2-second window the handler sleeps 3 seconds and re-fetches, but
it accepts the re-fetched code unconditionally: an oracle whose second
response reports a 1-second window sees its code accepted with 0 further
seconds of waiting (0 < 1) and no further re-fetch, refuting the claim
that the handler waits at least `remaining_seconds` whenever the oracle
reports a window below the margin. -/
theorem totp_fresh_counterexample :
    ¬ freshCodeClaim
      (get_totp_code true "SECRET" true (some ("111111", 2)) (some ("222222", 1))) := by
  intro hcl
  have hw := hcl (by decide)
  exact absurd hw (by decide)

/-- C3 (corrected, amended): when the **first** oracle response reports a
window `rem` below the 5-second margin, `get_totp_code(wait_for_fresh)`
sleeps `rem + 1 ≥ rem` seconds before accepting anything and re-fetches;
any code it then returns is the re-fetched one, never the short-window
first code.  The re-fetched code itself is accepted without a further
window check or wait (see the counterexample). -/
theorem totp_fresh_amended (secret c : String) (rem : Nat) (r2 : Option (String × Nat))
    (hs : secret ≠ "") (hrem : rem < 5) :
    rem ≤ sleepAfter (get_totp_code true secret true (some (c, rem)) r2).events 0 ∧
    (get_totp_code true secret true (some (c, rem)) r2).events.getD 0 TotpEv.fetchFail =
      TotpEv.fetch c rem ∧
    (get_totp_code true secret true (some (c, rem)) r2).events.getD 1 TotpEv.fetchFail =
      TotpEv.sleep (rem + 1) ∧
    (get_totp_code true secret true (some (c, rem)) r2).code =
      (match r2 with | none => "" | some (c2, _) => c2) := by
  have hb : (true && decide (rem < 5)) = true := by simp [hrem]
  cases r2 with
  | none =>
    have hr : get_totp_code true secret true (some (c, rem)) none =
        ⟨"", [TotpEv.fetch c rem, TotpEv.sleep (rem + 1), TotpEv.fetchFail]⟩ := by
      simp [get_totp_code, hs, hb]
    rw [hr]
    refine ⟨?_, rfl, rfl, rfl⟩
    simp [sleepAfter]
  | some p =>
    obtain ⟨c2, rem2⟩ := p
    have hr : get_totp_code true secret true (some (c, rem)) (some (c2, rem2)) =
        ⟨c2, [TotpEv.fetch c rem, TotpEv.sleep (rem + 1), TotpEv.fetch c2 rem2]⟩ := by
      simp [get_totp_code, hs, hb]
    rw [hr]
    refine ⟨?_, rfl, rfl, rfl⟩
    simp [sleepAfter]

/-- C3 witness: first window of 2 seconds, well-behaved second response. -/
theorem totp_fresh_amended_witness :
    2 ≤ sleepAfter
        (get_totp_code true "S" true (some ("111111", 2)) (some ("222222", 29))).events 0 ∧
    (get_totp_code true "S" true (some ("111111", 2)) (some ("222222", 29))).events.getD 0
        TotpEv.fetchFail = TotpEv.fetch "111111" 2 ∧
    (get_totp_code true "S" true (some ("111111", 2)) (some ("222222", 29))).events.getD 1
        TotpEv.fetchFail = TotpEv.sleep 3 ∧
    (get_totp_code true "S" true (some ("111111", 2)) (some ("222222", 29))).code =
      "222222" :=
  totp_fresh_amended "S" "111111" 2 (some ("222222", 29)) (by decide) (by decide)

/-- C2 counterexample: the identifiers `a.b@x` and `a_b@x` are distinct
but derive the same session file name `a_b_at_x.json`, so the transform is
not reversible and two accounts can share a Session Record. -/
theorem session_file_collision :
    session_file_name ("a.b@x").toList = session_file_name ("a_b@x").toList ∧
    ("a.b@x").toList ≠ ("a_b@x").toList := by
  decide

/-- C2 (corrected, amended): the session-file transform is
filesystem-safe — neither `'@'` nor `'.'` ever occurs in the derived
name — and it is injective on identifiers containing neither `'.'` nor
`'_'`; it is not injective in general (see the collision counterexample),
so distinct identifiers can share a Session Record. -/
theorem session_file_spec (e1 e2 : List Char) :
    ('@' ∉ safe_name e1 ∧ '.' ∉ safe_name e1) ∧
    (plainId e1 = true → plainId e2 = true →
      session_file_name e1 = session_file_name e2 → e1 = e2) := by
  constructor
  · constructor
    · intro hm
      rcases mem_replaceDot hm with h | h
      · exact absurd h (by decide)
      · exact at_not_mem_replaceAt e1 h
    · exact dot_not_mem_replaceDot _
  · intro h1 h2 h
    have hsn : safe_name e1 = safe_name e2 := append_cancel_json (".json").toList h
    have q1 := plainId_spec h1
    have q2 := plainId_spec h2
    have hd1 : '.' ∉ replaceAt e1 := by
      intro hm
      rcases mem_replaceAt hm with hx | hx | hx | hx
      · exact q1.1 hx
      all_goals exact absurd hx (by decide)
    have hd2 : '.' ∉ replaceAt e2 := by
      intro hm
      rcases mem_replaceAt hm with hx | hx | hx | hx
      · exact q2.1 hx
      all_goals exact absurd hx (by decide)
    have hu : replaceAt e1 = replaceAt e2 := by
      have hw := hsn
      rw [safe_name, safe_name, replaceDot_eq_self hd1, replaceDot_eq_self hd2] at hw
      exact hw
    exact replaceAt_injOn q1.2 q2.2 hu

/-- C2 witness: the restricted-injectivity hypotheses are satisfiable. -/
theorem session_file_spec_witness :
    plainId ("alice@example").toList = true ∧
    ("alice@example").toList = ("alice@example").toList :=
  ⟨by decide,
    (session_file_spec ("alice@example").toList ("alice@example").toList).2
      (by decide) (by decide) rfl⟩

/-- C1 counterexample: with two configured accounts, an uncaught exception
in the first account's run aborts the batch: `main`'s loop stops with the
exception, only the first account was attempted, and no Batch Result is
produced — refuting the claim that the fault is converted into a failure
outcome and accounts i+1..n are still attempted. -/
theorem batch_abort_counterexample :
    (runAccounts runRaises [acctA, acctB]).1 = [acctA] ∧
    (runAccounts runRaises [acctA, acctB]).2 = Except.error () := by
  constructor <;> rfl

/-- C1 (corrected, amended): whenever every account's run completes with a
boolean outcome — in particular when some accounts merely report failure,
e.g. on a wrong credential — every configured account is attempted and the
Batch Result has exactly one entry per account, in input order.  An
unexpected exception, however, is not caught at the per-account boundary
(`IDC56Login.run` has `try/finally` with no `except`, and `main` does not
catch around `login.run()` either), so it aborts the batch and later
accounts are not attempted; only the browser release is guaranteed by the
`finally`. -/
theorem batch_isolation (run : Account → Except Unit Bool) (accounts : List Account)
    (h : ∀ a ∈ accounts, isOkB (run a) = true) :
    (runAccounts run accounts).1 = accounts ∧
    ∃ rs : List (String × Bool), (runAccounts run accounts).2 = Except.ok rs ∧
      rs.map Prod.fst = accounts.map Account.email ∧ rs.length = accounts.length := by
  rw [runAccounts_ok run accounts h]
  refine ⟨rfl, accounts.map fun a => (a.email, okVal (run a)), rfl, ?_, by simp⟩
  simp [List.map_map, Function.comp]

/-- C1 witness: first account fails (boolean outcome), second succeeds;
both are attempted and the result has one entry per account in order. -/
theorem batch_isolation_witness :
    (runAccounts runMixed [acctA, acctB]).1 = [acctA, acctB] ∧
    ∃ rs : List (String × Bool), (runAccounts runMixed [acctA, acctB]).2 = Except.ok rs ∧
      rs.map Prod.fst = [acctA, acctB].map Account.email ∧
      rs.length = ([acctA, acctB] : List Account).length :=
  batch_isolation runMixed [acctA, acctB] (by decide)

/-- C4 (confirmed): the exit status is `0` iff the configuration is
nonempty and every configured account's run reported success (an uncaught
exception yields the `exn` status, which the interpreter also maps to a
non-zero exit); an empty parsed configuration exits with status 1 before
any account's run is invoked (no browser activity). -/
theorem main_exit_spec (run : Account → Except Unit Bool) (s : String) :
    ((mainExit run s).2 = ExitStatus.code 0 ↔
      parse_accounts s ≠ [] ∧ ∀ a ∈ parse_accounts s, run a = Except.ok true) ∧
    (parse_accounts s = [] → mainExit run s = ([], ExitStatus.code 1)) := by
  by_cases he : parse_accounts s = []
  · have hie : (parse_accounts s).isEmpty = true := by simp [he]
    constructor
    · simp [mainExit, hie, he]
    · intro _
      simp [mainExit, hie]
  · have hie : (parse_accounts s).isEmpty = false := by
      cases hp : parse_accounts s with
      | nil => exact absurd hp he
      | cons a l => simp
    constructor
    · simp only [mainExit, hie, Bool.false_eq_true, if_false]
      rw [batchExit_zero_iff]
      simp [he]
    · intro hcon
      exact absurd hcon he

/-- C4 witness: the empty configuration exits 1 with no run invoked. -/
theorem main_exit_spec_witness :
    mainExit (fun _ => Except.ok true) "" = ([], ExitStatus.code 1) :=
  (main_exit_spec (fun _ => Except.ok true) "").2 (by decide)

end IDC56
